import Mathlib

/-!
# Shallow embedding of the Shelfworthy post-classification pipeline

This file embeds the pure fragments of `src/post_classifier.py` (the
entity-cleaning rules of `PostClassifier.extract_entities`, the persistence
operations `save_genre_to_db`, `save_book_to_db`, `save_skeet_to_db`, and the
batch orchestrator `classify_and_save_posts`) together with the relational
rows of `src/database.py`.

Strings are modelled at the ASCII level: `Char.toLower`, `Char.isAlpha` and
`Char.isWhitespace` stand in for Python's `str.lower`, alphabetic test and
whitespace test, which agree on the ASCII inputs the pipeline handles.

The external collaborators (the zero-shot classifier, the two
question-answering calls, the Bluesky fetch) are modelled as an `Oracle` of
fallible functions, and the relational store as an explicit `DB` state with
per-table id counters; rows are appended in insertion order so that
`List.find?` matches SQLModel's `.first()` on an unordered `select`.
-/

namespace Shelfworthy

/-! ## Python string primitives -/

/-- Python `str.lower()` (ASCII). -/
def pyLower (s : String) : String := String.mk (s.data.map Char.toLower)

/-- Whether `needle` occurs at the head of `hay` (Python `str.startswith` on chars). -/
def charsPrefixOf : List Char → List Char → Bool
  | [], _ => true
  | _ :: _, [] => false
  | a :: as, b :: bs => a == b && charsPrefixOf as bs

/-- Whether `needle` occurs somewhere inside `hay`: Python's `needle in hay`. -/
def containsStr : List Char → List Char → Bool
  | needle, [] => charsPrefixOf needle []
  | needle, c :: rest => charsPrefixOf needle (c :: rest) || containsStr needle rest

/-- Python `hay.replace(pat, "")` for a pattern: remove every (leftmost,
non-overlapping) occurrence of `pat`. An empty pattern removes nothing
(the source only ever calls this with a non-empty author string).
Structural recursion on a step count: each step consumes at least one
character of the remaining text, so the wrapper's `l.length` steps are
never exhausted and the `0, l` arm is unreachable with `l ≠ []`. -/
def removeAllF (pat : List Char) : Nat → List Char → List Char
  | _, [] => []
  | 0, l => l
  | fuel + 1, c :: rest =>
    if pat != [] && charsPrefixOf pat (c :: rest) then
      removeAllF pat fuel ((c :: rest).drop pat.length)
    else
      c :: removeAllF pat fuel rest

/-- Python `hay.replace(pat, "")`. -/
def removeAll (pat l : List Char) : List Char := removeAllF pat l.length l

/-- Python `str.strip()`: drop leading and trailing whitespace. -/
def stripChars (l : List Char) : List Char :=
  ((l.dropWhile Char.isWhitespace).reverse.dropWhile Char.isWhitespace).reverse

/-- Python `str.split()` with no argument: the maximal non-whitespace runs,
in order, with empty runs discarded.  Structural recursion on a step
count, as for `removeAllF`. -/
def pyWordsF : Nat → List Char → List (List Char)
  | _, [] => []
  | 0, _ => []
  | fuel + 1, c :: rest =>
    if c.isWhitespace then pyWordsF fuel rest
    else
      (c :: rest).takeWhile (fun x => !x.isWhitespace) ::
        pyWordsF fuel ((c :: rest).dropWhile (fun x => !x.isWhitespace))

/-- Python `str.split()` with no argument. -/
def pyWords (l : List Char) : List (List Char) := pyWordsF l.length l

/-- Python `" ".join(words)`. -/
def joinSpace : List (List Char) → List Char
  | [] => []
  | [w] => w
  | w :: ws => w ++ ' ' :: joinSpace ws

/-- Python `str.title()` (ASCII): an alphabetic character is uppercased when
the previous character is not alphabetic, lowercased otherwise; other
characters pass through. The flag records whether the previous character
was alphabetic. -/
def pyTitleAux : Bool → List Char → List Char
  | _, [] => []
  | prevAlpha, c :: rest =>
    if c.isAlpha then
      (if prevAlpha then c.toLower else c.toUpper) :: pyTitleAux true rest
    else
      c :: pyTitleAux false rest

/-- Python `str.title()` on a string. -/
def pyTitle (s : String) : String := String.mk (pyTitleAux false s.data)

/-! ## Entity cleaning (`PostClassifier.extract_entities`, lines 76-99)

The method first cleans the book title — reading the *raw* `author`
variable, which has not been cleaned yet at that point — and only then
cleans the author.  `clean_title` and `clean_author` are the two blocks of
that method, parameterised by the raw question-answering answers. -/

/-- Lines 81-91 of `post_classifier.py`: the book-title cleaning block,
taking the raw author answer and the raw title answer. -/
def clean_title (author book_title : String) : Option String :=
  if book_title = "" || ["booksky", "unknown", "none"].contains (pyLower book_title) then
    none
  else
    let t1 : String :=
      if author != "" && containsStr (pyLower author).data (pyLower book_title).data then
        String.mk (stripChars (removeAll (pyLower author).data (pyLower book_title).data))
      else book_title
    let t2 : String := String.mk (stripChars (t1.data.takeWhile (fun ch => ch != '/')))
    some (pyTitle t2)

/-- Lines 93-98 of `post_classifier.py`: the author cleaning block. -/
def clean_author (author : String) : Option String :=
  if author = "" || ["unknown", "none", "author", "anonymous"].contains (pyLower author) then
    none
  else
    some (pyTitle (String.mk (joinSpace (pyWords author.data))))

/-- The dictionary returned by `extract_entities`: singleton lists of the
cleaned author and cleaned title. -/
structure Entities where
  authors : List (Option String)
  book_titles : List (Option String)
deriving DecidableEq, Repr

/-- Method `PostClassifier.extract_entities`, parameterised by the raw answers the
two question-answering calls returned. -/
def extract_entities (author book_title : String) : Entities :=
  { authors := [clean_author author], book_titles := [clean_title author book_title] }

/-! ## Specification-side cleaning definitions

These follow the specification's words, to be compared with the
source-derived `clean_title` / `clean_author` above. -/

/-- The specification's "collapse internal whitespace runs to single spaces":
a whitespace run followed by more text becomes a single `' '`; a trailing
whitespace run is dropped.  Used on input whose leading whitespace was
already trimmed. -/
def specCollapseF : Nat → List Char → List Char
  | _, [] => []
  | 0, l => l
  | fuel + 1, c :: rest =>
    if c.isWhitespace then
      let rest' := rest.dropWhile Char.isWhitespace
      if rest'.isEmpty then [] else ' ' :: specCollapseF fuel rest'
    else c :: specCollapseF fuel rest

/-- Wrapper of `specCollapseF` at its step bound. -/
def specCollapseCore (l : List Char) : List Char := specCollapseF l.length l

/-- Author cleaning as the specification words it: blocklist check, then
collapse internal whitespace runs to single spaces, trim, and title-case. -/
def author_clean_spec (author : String) : Option String :=
  if author = "" || ["unknown", "none", "author", "anonymous"].contains (pyLower author) then
    none
  else
    some (pyTitle (String.mk (specCollapseCore (author.data.dropWhile Char.isWhitespace))))

/-- Title cleaning as claims C2 and C3 read the specification: the author
string consulted by the substring-removal step is the *cleaned* author
(whitespace-collapsed, trimmed, title-cased, `none` when the raw author is
empty or blocklisted); removal happens only when that cleaned author is
non-null and occurs case-insensitively in the title; then the portion
before the first `'/'` is kept, trimmed, and title-cased. -/
def title_clean_per_claim (author book_title : String) : Option String :=
  if book_title = "" || ["booksky", "unknown", "none"].contains (pyLower book_title) then
    none
  else
    let removed : String :=
      match clean_author author with
      | some ca =>
        if containsStr (pyLower ca).data (pyLower book_title).data then
          String.mk (removeAll (pyLower ca).data (pyLower book_title).data)
        else book_title
      | none => book_title
    some (pyTitle (String.mk (stripChars (removed.data.takeWhile (fun ch => ch != '/')))))

/-- Title cleaning as the code actually behaves (the amended claims): after
the blocklist check, the substring-removal step reads the *raw* author
answer — when it is a non-empty string occurring case-insensitively in the
title, every occurrence is removed, even when the raw author is itself a
blocklisted placeholder such as `"unknown"`; then the portion before the
first `'/'` is kept, trimmed, and title-cased. -/
def title_clean_amended (author book_title : String) : Option String :=
  if book_title = "" || ["booksky", "unknown", "none"].contains (pyLower book_title) then
    none
  else
    let removed : String :=
      if author != "" && containsStr (pyLower author).data (pyLower book_title).data then
        String.mk (removeAll (pyLower author).data (pyLower book_title).data)
      else book_title
    some (pyTitle (String.mk (stripChars (removed.data.takeWhile (fun ch => ch != '/')))))

/-! ## Relational rows (`src/database.py`)

`saved_at` (a wall-clock default) and the relationship attributes are
outside the model; `description` on `Genre` is always created as `None` by
the pipeline, mirroring `Genre(name=genre_name)`. -/

/-- Row `Genre` (`database.py` lines 24-30). -/
structure Genre where
  id : Nat
  name : String
  description : Option String
deriving DecidableEq, Repr

/-- Row `Book` (`database.py` lines 33-40). `author : str` is a required
field, hence a NOT NULL column: every committed row carries a real author
string.  `save_book_to_db` nevertheless *receives* a possibly-null cleaned
author; committing a `Book` built from `None` violates the constraint (an
`IntegrityError`), modelled in `save_book_to_db` below. -/
structure Book where
  id : Nat
  title : String
  author : String
  genre_id : Nat
deriving DecidableEq, Repr

/-- Row `Post` (`database.py` lines 42-53). -/
structure Post where
  id : Nat
  handle : String
  display_name : String
  text : String
  timestamp : Nat
  like_count : Nat
  uri : String
deriving DecidableEq, Repr

/-- Association row `ClassifiedPost` (`database.py` lines 55-61). -/
structure ClassifiedPost where
  post_id : Nat
  genre_id : Nat
deriving DecidableEq, Repr

/-- Row `SavedSkeet` (`database.py` lines 63-77), without `saved_at`. -/
structure SavedSkeet where
  id : Nat
  post_id : Nat
  user_id : Nat
  book_id : Option Nat
deriving DecidableEq, Repr

/-- The relational store: one list per table in insertion order, plus the
autoincrement counter of each table's primary key. -/
structure DB where
  posts : List Post
  genres : List Genre
  books : List Book
  classified : List ClassifiedPost
  skeets : List SavedSkeet
  nextPostId : Nat
  nextGenreId : Nat
  nextBookId : Nat
  nextSkeetId : Nat
deriving DecidableEq, Repr

/-- The freshly created store (`create_db_and_tables` on a new file). -/
def emptyDB : DB :=
  { posts := [], genres := [], books := [], classified := [], skeets := []
    nextPostId := 1, nextGenreId := 1, nextBookId := 1, nextSkeetId := 1 }

/-- The per-post state a `PostClassifier` instance carries
(`post_classifier.py` lines 26-38, minus the inference client). -/
structure Classifier where
  post_text : String
  handle : String
  display_name : String
  like_count : Nat
  timestamp : Nat
  uri : String
deriving DecidableEq, Repr

/-! ## Persistence operations (`post_classifier.py` lines 102-202)

`save_genre_to_db` and `save_skeet_to_db` each open with the same
lookup-or-create block for the post keyed on its text, and
`save_genre_to_db` / `save_book_to_db` share the same lookup-or-create
block for the genre keyed on its name; the duplicated source blocks are
embedded once as `ensurePost` / `ensureGenre`. -/

/-- Lookup-or-create of the `Post` row keyed on the post text
(`post_classifier.py` lines 106-118 and, identically, 169-181). -/
def ensurePost (c : Classifier) (db : DB) : Post × DB :=
  match db.posts.find? (fun p => p.text == c.post_text) with
  | some p => (p, db)
  | none =>
    let p : Post :=
      { id := db.nextPostId, handle := c.handle, display_name := c.display_name
        text := c.post_text, timestamp := c.timestamp, like_count := c.like_count
        uri := c.uri }
    (p, { db with posts := db.posts ++ [p], nextPostId := db.nextPostId + 1 })

/-- Lookup-or-create of the `Genre` row keyed on its name
(`post_classifier.py` lines 120-125 and, identically, 143-148). -/
def ensureGenre (genre_name : String) (db : DB) : Genre × DB :=
  match db.genres.find? (fun g => g.name == genre_name) with
  | some g => (g, db)
  | none =>
    let g : Genre := { id := db.nextGenreId, name := genre_name, description := none }
    (g, { db with genres := db.genres ++ [g], nextGenreId := db.nextGenreId + 1 })

/-- Method `PostClassifier.save_genre_to_db` (lines 102-137): ensure the post and
the genre, then insert the `ClassifiedPost` association if absent. -/
def save_genre_to_db (c : Classifier) (genre_name : String) (db : DB) : DB :=
  let pdb := ensurePost c db
  let gdb := ensureGenre genre_name pdb.2
  match gdb.2.classified.find?
      (fun e => e.post_id == pdb.1.id && e.genre_id == gdb.1.id) with
  | some _ => gdb.2
  | none =>
    { gdb.2 with
      classified := gdb.2.classified ++ [{ post_id := pdb.1.id, genre_id := gdb.1.id }] }

/-- How `save_book_to_db` can raise: the explicit `ValueError` of line 151,
or the `IntegrityError` the store raises when the commit of a `Book` built
from a `None` author violates the NOT NULL `book.author` column. -/
inductive SaveBookErr where
  | validation : String → SaveBookErr
  | integrity : SaveBookErr
deriving DecidableEq, Repr

/-- Method `PostClassifier.save_book_to_db` (lines 139-163): ensure the genre,
raise `ValueError` on an empty title (the genre creation is already
committed at that point), then lookup-or-create the book keyed on
`(title, author)`, with `genre_id` taken from the ensured genre only at
creation. The lookup's `Book.author == author` clause becomes
`author IS NULL` when the cleaned author is `None`, matching no row of the
NOT NULL column — modelled as `some b.author == author`, false at `none` —
and the subsequent create then fails at `session.commit()` with an
`IntegrityError`, leaving the books table unchanged.  The returned state is
the store as left committed, also when an exception propagates. -/
def save_book_to_db (book_title : String) (author : Option String)
    (genre_name : String) (db : DB) : Except SaveBookErr Book × DB :=
  let gdb := ensureGenre genre_name db
  if book_title = "" then
    (.error (.validation "Book title cannot be empty!"), gdb.2)
  else
    match gdb.2.books.find?
        (fun b => b.title == book_title && some b.author == author) with
    | some b => (.ok b, gdb.2)
    | none =>
      match author with
      | none => (.error .integrity, gdb.2)
      | some a =>
        let b : Book :=
          { id := gdb.2.nextBookId, title := book_title, author := a
            genre_id := gdb.1.id }
        (.ok b, { gdb.2 with books := gdb.2.books ++ [b]
                             nextBookId := gdb.2.nextBookId + 1 })

/-- Method `PostClassifier.save_skeet_to_db` (lines 165-202): ensure the post,
look the `SavedSkeet` up by `(post_id, user_id = 1)`; when found, backfill
`book_id` only if a book was passed and the stored `book_id` is still
null; when absent, create the row under user `1` with the given book id
(possibly null). -/
def save_skeet_to_db (c : Classifier) (book : Option Book) (db : DB) : DB :=
  let pdb := ensurePost c db
  match pdb.2.skeets.find? (fun s => s.post_id == pdb.1.id && s.user_id == 1) with
  | some s =>
    match book with
    | some b =>
      if s.book_id = none then
        { pdb.2 with
          skeets := pdb.2.skeets.map
            (fun t => if t.id == s.id then { t with book_id := some b.id } else t) }
      else pdb.2
    | none => pdb.2
  | none =>
    { pdb.2 with
      skeets := pdb.2.skeets ++
        [{ id := pdb.2.nextSkeetId, post_id := pdb.1.id, user_id := 1
           book_id := book.map (fun b => b.id) }]
      nextSkeetId := pdb.2.nextSkeetId + 1 }

/-! ## Batch orchestrator (`PostClassifier.classify_and_save_posts`, lines 204-236)

The external collaborators — the zero-shot classifier behind
`classify_genre` and the two question-answering calls behind
`extract_author` / `extract_book_title` — are modelled as an `Oracle` of
fallible functions of the post text; an `Except.error` stands for the
`ExternalServiceError` the network client raises.  The loop body has no
exception handler, so an error propagates out of the whole batch; the
store keeps whatever the per-operation sessions had already committed. -/

/-- A raw post as produced by `search_bsky_posts`, with its fields already
extracted (defaulting of missing dictionary keys and ISO-8601 timestamp
parsing happen before the part being modelled). -/
structure RawPost where
  text : String
  handle : String
  display_name : String
  like_count : Nat
  timestamp : Nat
  uri : String
deriving DecidableEq, Repr

/-- The external model capabilities consumed per post. -/
structure Oracle where
  classify : String → Except Unit String
  qa_author : String → Except Unit String
  qa_title : String → Except Unit String

/-- How processing a post can fail: an `ExternalServiceError` from a model
call, the `ValueError` `save_book_to_db` raises on an empty title, or the
`IntegrityError` its commit raises on a null author. -/
inductive PErr where
  | external : PErr
  | validation : String → PErr
  | integrity : PErr
deriving DecidableEq, Repr

/-- How a `save_book_to_db` exception surfaces at the pipeline level. -/
def SaveBookErr.toPErr : SaveBookErr → PErr
  | .validation m => .validation m
  | .integrity => .integrity

/-- The `PostClassifier` instance built for one raw post
(`post_classifier.py` lines 211-218). -/
def mkClassifier (rp : RawPost) : Classifier :=
  { post_text := rp.text, handle := rp.handle, display_name := rp.display_name
    like_count := rp.like_count, timestamp := rp.timestamp, uri := rp.uri }

/-- The `for author, book_title in zip(...)` loop (lines 228-234): a falsy
cleaned title — `None` or the empty string — takes the book-less
`save_skeet_to_db()` branch; otherwise `save_book_to_db` runs first and
its book is passed to `save_skeet_to_db`.  A `ValueError` raised by
`save_book_to_db` would propagate, aborting the rest of the pairs. -/
def persistPairs (c : Classifier) (genre : String) :
    List (Option String × Option String) → DB → DB × Option PErr
  | [], db => (db, none)
  | (author, book_title) :: rest, db =>
    match book_title with
    | none => persistPairs c genre rest (save_skeet_to_db c none db)
    | some t =>
      if t = "" then persistPairs c genre rest (save_skeet_to_db c none db)
      else
        match save_book_to_db t author genre db with
        | (.error e, db1) => (db1, some e.toPErr)
        | (.ok b, db1) => persistPairs c genre rest (save_skeet_to_db c (some b) db1)

/-- One iteration of the batch loop (lines 210-234): classify, persist the
genre, extract and clean the entities, then persist book and skeet.  The
returned store is what the per-operation sessions committed before a
failure, if any. -/
def processPost (o : Oracle) (rp : RawPost) (db : DB) : DB × Option PErr :=
  let c := mkClassifier rp
  match o.classify rp.text with
  | .error _ => (db, some .external)
  | .ok genre =>
    let db1 := save_genre_to_db c genre db
    match o.qa_author rp.text with
    | .error _ => (db1, some .external)
    | .ok rawAuthor =>
      match o.qa_title rp.text with
      | .error _ => (db1, some .external)
      | .ok rawTitle =>
        let ents := extract_entities rawAuthor rawTitle
        persistPairs c genre (ents.authors.zip ents.book_titles) db1

/-- Method `PostClassifier.classify_and_save_posts` after the fetch: the posts are
processed strictly sequentially, and — the loop body having no exception
handler — the first failure propagates out, leaving the remaining posts
unprocessed. -/
def classify_and_save_posts (o : Oracle) : List RawPost → DB → DB × Option PErr
  | [], db => (db, none)
  | rp :: rest, db =>
    match processPost o rp db with
    | (db1, none) => classify_and_save_posts o rest db1
    | (db1, some e) => (db1, some e)

/-- The PERSISTED branch as claim C7 words it: the book-less branch is
taken exactly when the cleaned title is `null`; any non-null cleaned
title — including the empty string — goes to `save_book_to_db` first. -/
def persistPairsClaimC7 (c : Classifier) (genre : String) :
    List (Option String × Option String) → DB → DB × Option PErr
  | [], db => (db, none)
  | (author, book_title) :: rest, db =>
    match book_title with
    | none => persistPairsClaimC7 c genre rest (save_skeet_to_db c none db)
    | some t =>
      match save_book_to_db t author genre db with
      | (.error e, db1) => (db1, some e.toPErr)
      | (.ok b, db1) => persistPairsClaimC7 c genre rest (save_skeet_to_db c (some b) db1)

/-- Variant of `processPost` with its PERSISTED branch replaced by claim C7's
reading (`persistPairsClaimC7`). -/
def processPostClaimC7 (o : Oracle) (rp : RawPost) (db : DB) : DB × Option PErr :=
  let c := mkClassifier rp
  match o.classify rp.text with
  | .error _ => (db, some .external)
  | .ok genre =>
    let db1 := save_genre_to_db c genre db
    match o.qa_author rp.text with
    | .error _ => (db1, some .external)
    | .ok rawAuthor =>
      match o.qa_title rp.text with
      | .error _ => (db1, some .external)
      | .ok rawTitle =>
        let ents := extract_entities rawAuthor rawTitle
        persistPairsClaimC7 c genre (ents.authors.zip ents.book_titles) db1

/-! ## Reachability for the `save_genre_to_db` invariant (claim C8) -/

/-- States reachable from the fresh store through `save_genre_to_db` calls. -/
inductive ReachableGenre : DB → Prop where
  | init : ReachableGenre emptyDB
  | step (c : Classifier) (genre_name : String) {db : DB} :
      ReachableGenre db → ReachableGenre (save_genre_to_db c genre_name db)

/-- Claim C8's invariant: every `ClassifiedPost` row references a `Post`
and a `Genre` present in the store, and no two `ClassifiedPost` rows share
the same `(post_id, genre_id)` pair. -/
def ClassifiedInv (db : DB) : Prop :=
  (∀ cp ∈ db.classified,
    (∃ p ∈ db.posts, p.id = cp.post_id) ∧ (∃ g ∈ db.genres, g.id = cp.genre_id)) ∧
  List.Pairwise (fun a b => ¬(a.post_id = b.post_id ∧ a.genre_id = b.genre_id))
    db.classified

/-! ## Helper definitions used in theorem statements -/

/-- Number of `Genre` rows carrying a given name. -/
def genreCount (name : String) (db : DB) : Nat :=
  (db.genres.filter (fun g => g.name == name)).length

/-- Number of `Book` rows carrying a given `(title, author)` pair. -/
def bookCount (t : String) (a : String) (db : DB) : Nat :=
  (db.books.filter (fun b => b.title == t && b.author == a)).length

/-- Number of `SavedSkeet` rows carrying a given `(post_id, user_id)` pair. -/
def skeetCount (pid uid : Nat) (db : DB) : Nat :=
  (db.skeets.filter (fun s => s.post_id == pid && s.user_id == uid)).length

/-- The id under which a classifier's post is — or, when absent, will on the
next `ensurePost` be — stored. -/
def targetPostId (c : Classifier) (db : DB) : Nat :=
  match db.posts.find? (fun p => p.text == c.post_text) with
  | some p => p.id
  | none => db.nextPostId

/-- A raw post with the given text and fixed metadata, for the concrete
batch scenarios. -/
def rawPostNamed (t : String) : RawPost :=
  { text := t, handle := "h", display_name := "H", like_count := 5
    timestamp := 0, uri := "at" }

/-- Oracle of the batch-resilience scenario: the classification call raises
exactly on the post whose text is `"t2"`; the extraction answers are
placeholder strings that clean to null, so every successfully classified
post is persisted book-less. -/
def oracleFailT2 : Oracle :=
  { classify := fun t => if t == "t2" then .error () else .ok "fantasy"
    qa_author := fun _ => .ok "unknown"
    qa_title := fun _ => .ok "unknown" }

/-- Oracle whose extraction answers make the cleaned title the *empty
string* (the raw title consists exactly of the raw author, which is
stripped out of it). -/
def oracleEmptyTitle : Oracle :=
  { classify := fun _ => .ok "romance"
    qa_author := fun _ => .ok "frank herbert"
    qa_title := fun _ => .ok "frank herbert" }

/-! ## Lemmas about `takeWhile`, `dropWhile` and `stripChars` -/

theorem dropWhile_append_of_all (q : Char → Bool) (u w : List Char)
    (h : ∀ c ∈ u, q c = true) : (u ++ w).dropWhile q = w.dropWhile q := by
  induction u with
  | nil => simp
  | cons c rest ih =>
    simp only [List.cons_append, List.dropWhile_cons, h c (by simp), if_true]
    exact ih (fun d hd => h d (by simp [hd]))

theorem dropWhile_append_of_ne_nil (q : Char → Bool) (u w : List Char)
    (h : u.dropWhile q ≠ []) : (u ++ w).dropWhile q = u.dropWhile q ++ w := by
  induction u with
  | nil => simp [List.dropWhile] at h
  | cons c rest ih =>
    by_cases hc : q c
    · simp only [List.dropWhile_cons, hc, if_true] at h
      simp only [List.cons_append, List.dropWhile_cons, hc, if_true]
      exact ih h
    · simp [List.dropWhile_cons, hc]

theorem takeWhile_append_of_all (q : Char → Bool) (u w : List Char)
    (h : ∀ c ∈ u, q c = true) : (u ++ w).takeWhile q = u ++ w.takeWhile q := by
  induction u with
  | nil => simp
  | cons c rest ih =>
    simp only [List.cons_append, List.takeWhile_cons, h c (by simp), if_true]
    rw [ih (fun d hd => h d (by simp [hd]))]

theorem takeWhile_append_of_not_all (q : Char → Bool) (u w : List Char)
    (h : u.takeWhile q ≠ u) : (u ++ w).takeWhile q = u.takeWhile q := by
  induction u with
  | nil => simp at h
  | cons c rest ih =>
    by_cases hc : q c
    · simp only [List.takeWhile_cons, hc, if_true] at h ⊢
      have h2 : rest.takeWhile q ≠ rest := fun he => h (by rw [he])
      simp only [List.cons_append, List.takeWhile_cons, hc, if_true]
      rw [ih h2]
    · simp [List.takeWhile_cons, hc]

theorem takeWhile_dropWhile_ws_comm (q : Char → Bool)
    (hp : ∀ c : Char, c.isWhitespace = true → q c = true) (l : List Char) :
    (l.dropWhile Char.isWhitespace).takeWhile q
      = (l.takeWhile q).dropWhile Char.isWhitespace := by
  induction l with
  | nil => simp
  | cons c rest ih =>
    by_cases hc : c.isWhitespace
    · simp only [List.dropWhile_cons, List.takeWhile_cons, hc, hp c hc, if_true]
      exact ih
    · by_cases hqc : q c
      · simp [List.dropWhile_cons, List.takeWhile_cons, hc, hqc]
      · simp [List.dropWhile_cons, List.takeWhile_cons, hc, hqc]

theorem strip_append_ws (u w : List Char) (hw : ∀ c ∈ w, c.isWhitespace = true) :
    stripChars (u ++ w) = stripChars u := by
  by_cases h : u.dropWhile Char.isWhitespace = []
  · have hu : ∀ c ∈ u, c.isWhitespace = true := List.dropWhile_eq_nil_iff.mp h
    have h1 : (u ++ w).dropWhile Char.isWhitespace = [] := by
      rw [dropWhile_append_of_all _ _ _ hu]
      exact List.dropWhile_eq_nil_iff.mpr hw
    simp [stripChars, h, h1]
  · unfold stripChars
    rw [dropWhile_append_of_ne_nil _ _ _ h, List.reverse_append,
      dropWhile_append_of_all _ _ _ (fun c hc => hw c (List.mem_reverse.mp hc))]

theorem strip_dropWhile_ws (l : List Char) :
    stripChars (l.dropWhile Char.isWhitespace) = stripChars l := by
  unfold stripChars
  rw [List.dropWhile_idempotent]

theorem strip_takeWhile_strip (q : Char → Bool)
    (hp : ∀ c : Char, c.isWhitespace = true → q c = true) (l : List Char) :
    stripChars ((stripChars l).takeWhile q) = stripChars (l.takeWhile q) := by
  have hdecomp : l.dropWhile Char.isWhitespace
      = stripChars l
        ++ ((l.dropWhile Char.isWhitespace).reverse.takeWhile Char.isWhitespace).reverse := by
    conv_lhs => rw [← List.reverse_reverse (l.dropWhile Char.isWhitespace),
      ← List.takeWhile_append_dropWhile Char.isWhitespace
        (l.dropWhile Char.isWhitespace).reverse]
    rw [List.reverse_append]
    rfl
  have hw : ∀ c ∈ ((l.dropWhile Char.isWhitespace).reverse.takeWhile
      Char.isWhitespace).reverse, c.isWhitespace = true :=
    fun c hc => List.mem_takeWhile_imp (List.mem_reverse.mp hc)
  have hr : stripChars (l.takeWhile q)
      = stripChars ((l.dropWhile Char.isWhitespace).takeWhile q) := by
    rw [takeWhile_dropWhile_ws_comm q hp l, strip_dropWhile_ws]
  rw [hr, hdecomp]
  by_cases htw : (stripChars l).takeWhile q = stripChars l
  · have hall : ∀ c ∈ stripChars l, q c = true := by
      intro c hc
      rw [← htw] at hc
      exact List.mem_takeWhile_imp hc
    rw [takeWhile_append_of_all q _ _ hall,
      List.takeWhile_eq_self_iff.mpr (fun c hc => hp c (hw c hc)),
      strip_append_ws _ _ hw, htw]
  · rw [takeWhile_append_of_not_all q _ _ htw]

theorem ws_ne_slash (c : Char) (h : c.isWhitespace = true) : (c != '/') = true := by
  have h2 : ((c = ' ' ∨ c = '\t') ∨ c = '\x0d') ∨ c = '\n' := by
    simpa [Char.isWhitespace] using h
  rcases h2 with ((h2 | h2) | h2) | h2 <;> subst h2 <;> decide

/-! ## The title-cleaning block versus its specification-side readings -/

/-- The source's title cleaning (which strips after the removal and again
after the `'/'` cut) agrees everywhere with the amended specification
wording (removal of the raw author, one final trim): the two trims
commute with the `'/'` cut because `'/'` is not whitespace. -/
theorem clean_title_eq_amended (author book_title : String) :
    clean_title author book_title = title_clean_amended author book_title := by
  unfold clean_title title_clean_amended
  split
  · rfl
  · dsimp only []
    split
    · have h3 := strip_takeWhile_strip (fun ch => ch != '/') ws_ne_slash
        (removeAll (pyLower author).data (pyLower book_title).data)
      simp only [h3]
    · rfl

/-! ## `" ".join(s.split())` versus the specification's whitespace collapse -/

theorem pyWordsF_congr (f1 : Nat) : ∀ (f2 : Nat) (l : List Char),
    l.length ≤ f1 → l.length ≤ f2 → pyWordsF f1 l = pyWordsF f2 l := by
  induction f1 with
  | zero =>
    intro f2 l h1 _
    have h0 : l = [] := List.length_eq_zero.mp (Nat.le_zero.mp h1)
    subst h0
    cases f2 <;> rfl
  | succ f1 ih =>
    intro f2 l h1 h2
    cases l with
    | nil => cases f2 <;> rfl
    | cons c rest =>
      cases f2 with
      | zero => simp at h2
      | succ f2 =>
        simp only [List.length_cons, Nat.succ_le_succ_iff] at h1 h2
        simp only [pyWordsF]
        by_cases hc : c.isWhitespace
        · simp only [hc, if_true]
          exact ih f2 rest h1 h2
        · simp only [hc, Bool.false_eq_true, if_false]
          have hlen := (List.dropWhile_sublist
            (l := rest) (fun x => !x.isWhitespace)).length_le
          have hdw : (c :: rest).dropWhile (fun x => !x.isWhitespace)
              = rest.dropWhile (fun x => !x.isWhitespace) := by
            simp [List.dropWhile_cons, hc]
          rw [hdw, ih f2 _ (by omega) (by omega)]

theorem specCollapseF_congr (f1 : Nat) : ∀ (f2 : Nat) (l : List Char),
    l.length ≤ f1 → l.length ≤ f2 → specCollapseF f1 l = specCollapseF f2 l := by
  induction f1 with
  | zero =>
    intro f2 l h1 _
    have h0 : l = [] := List.length_eq_zero.mp (Nat.le_zero.mp h1)
    subst h0
    cases f2 <;> rfl
  | succ f1 ih =>
    intro f2 l h1 h2
    cases l with
    | nil => cases f2 <;> rfl
    | cons c rest =>
      cases f2 with
      | zero => simp at h2
      | succ f2 =>
        simp only [List.length_cons, Nat.succ_le_succ_iff] at h1 h2
        simp only [specCollapseF]
        by_cases hc : c.isWhitespace
        · simp only [hc, if_true]
          have hlen := (List.dropWhile_sublist (l := rest) Char.isWhitespace).length_le
          by_cases he : (rest.dropWhile Char.isWhitespace).isEmpty
          · simp [he]
          · simp only [he, Bool.false_eq_true, if_false]
            rw [ih f2 _ (by omega) (by omega)]
        · simp only [hc, Bool.false_eq_true, if_false]
          rw [ih f2 rest h1 h2]

theorem joinSpace_cons_cons (c : Char) (w : List Char) (tail : List (List Char)) :
    joinSpace ((c :: w) :: tail) = c :: joinSpace (w :: tail) := by
  cases tail <;> simp [joinSpace]

theorem dropWhile_head_false (q : Char → Bool) :
    ∀ (l : List Char) (e : Char) (r2 : List Char),
      l.dropWhile q = e :: r2 → q e = false := by
  intro l
  induction l with
  | nil => intro e r2 h; simp [List.dropWhile] at h
  | cons c rest ih =>
    intro e r2 h
    by_cases hc : q c
    · simp only [List.dropWhile_cons, hc, if_true] at h
      exact ih e r2 h
    · simp only [List.dropWhile_cons, hc, Bool.false_eq_true, if_false] at h
      cases h
      simpa using hc

/-- Wrapper-level unfolding: a whitespace head is skipped by `split()`. -/
theorem pyWords_cons_of_ws (c : Char) (rest : List Char)
    (hc : c.isWhitespace = true) : pyWords (c :: rest) = pyWords rest := by
  simp only [pyWords, List.length_cons, pyWordsF, hc, if_true]

/-- Wrapper-level unfolding: a non-whitespace head starts a word. -/
theorem pyWords_cons_of_not_ws (c : Char) (rest : List Char)
    (hc : ¬c.isWhitespace = true) :
    pyWords (c :: rest)
      = ((c :: rest).takeWhile (fun x => !x.isWhitespace))
        :: pyWordsF rest.length ((c :: rest).dropWhile (fun x => !x.isWhitespace)) := by
  simp only [pyWords, List.length_cons, pyWordsF, hc, Bool.false_eq_true, if_false]

/-- Python `split()` ignores leading whitespace. -/
theorem pyWords_skip_ws (l : List Char) :
    pyWords l = pyWords (l.dropWhile Char.isWhitespace) := by
  induction l with
  | nil => rfl
  | cons c rest ih =>
    by_cases hc : c.isWhitespace
    · rw [pyWords_cons_of_ws c rest hc]
      simp only [List.dropWhile_cons, hc, if_true]
      exact ih
    · simp [List.dropWhile_cons, hc]

/-- Wrapper-level unfolding of the collapse at a non-whitespace head. -/
theorem specCollapse_cons_of_not_ws (c : Char) (rest : List Char)
    (hc : ¬c.isWhitespace = true) :
    specCollapseCore (c :: rest) = c :: specCollapseCore rest := by
  simp only [specCollapseCore, List.length_cons, specCollapseF, hc,
    Bool.false_eq_true, if_false]

/-- The two statements of the split/join–collapse equivalence, proved
together by induction on a length bound: the main equation, and the
word-in-progress equation the recursive step threads through. -/
theorem joinSpace_pyWords_eq_collapse (n : Nat) :
    (∀ l : List Char, l.length ≤ n →
      joinSpace (pyWords l) = specCollapseCore (l.dropWhile Char.isWhitespace)) ∧
    (∀ l : List Char, l.length ≤ n →
      joinSpace ((l.takeWhile (fun x => !x.isWhitespace))
          :: pyWords (l.dropWhile (fun x => !x.isWhitespace)))
        = specCollapseCore l) := by
  induction n with
  | zero =>
    refine ⟨fun l h1 => ?_, fun l h1 => ?_⟩ <;>
      (have h0 : l = [] := List.length_eq_zero.mp (Nat.le_zero.mp h1); subst h0; rfl)
  | succ n ih =>
    have hQ : ∀ l : List Char, l.length ≤ n + 1 →
        joinSpace ((l.takeWhile (fun x => !x.isWhitespace))
            :: pyWords (l.dropWhile (fun x => !x.isWhitespace)))
          = specCollapseCore l := by
      intro l h1
      cases l with
      | nil => rfl
      | cons c rest =>
        simp only [List.length_cons, Nat.succ_le_succ_iff] at h1
        by_cases hc : c.isWhitespace
        · -- whitespace head: no word in progress; the collapse emits one
          -- space exactly when more text follows
          have htw : (c :: rest).takeWhile (fun x => !x.isWhitespace) = [] := by
            simp [List.takeWhile_cons, hc]
          have hdw : (c :: rest).dropWhile (fun x => !x.isWhitespace) = c :: rest := by
            simp [List.dropWhile_cons, hc]
          rw [htw, hdw, pyWords_cons_of_ws c rest hc, pyWords_skip_ws rest]
          have hrhs : specCollapseCore (c :: rest)
              = if (rest.dropWhile Char.isWhitespace).isEmpty then []
                else ' ' :: specCollapseF rest.length (rest.dropWhile Char.isWhitespace) := by
            simp only [specCollapseCore, List.length_cons, specCollapseF, hc, if_true]
          rw [hrhs]
          rcases hr : rest.dropWhile Char.isWhitespace with _ | ⟨e, r2⟩
          · simp [joinSpace]
          · have he : e.isWhitespace = false := dropWhile_head_false _ rest e r2 hr
            have hlen2 : r2.length + 1 ≤ n := by
              have hs := (List.dropWhile_sublist (l := rest) Char.isWhitespace).length_le
              rw [hr] at hs
              simp only [List.length_cons] at hs
              omega
            have hfc : specCollapseF rest.length (e :: r2)
                = specCollapseCore (e :: r2) := by
              apply specCollapseF_congr
              · have hs := (List.dropWhile_sublist (l := rest) Char.isWhitespace).length_le
                rw [hr] at hs
                simpa using hs
              · simp
            simp only [List.isEmpty_cons, Bool.false_eq_true, if_false, hfc]
            have hpmain : joinSpace (pyWords (e :: r2))
                = specCollapseCore ((e :: r2).dropWhile Char.isWhitespace) :=
              ih.1 (e :: r2) (by simpa using hlen2)
            have hdw2 : (e :: r2).dropWhile Char.isWhitespace = e :: r2 := by
              simp [List.dropWhile_cons, he]
            rw [hdw2] at hpmain
            rcases hpw : pyWords (e :: r2) with _ | ⟨w0, tail0⟩
            · rw [pyWords_cons_of_not_ws e r2 (by simp [he])] at hpw
              cases hpw
            · rw [hpw] at hpmain
              simp only [joinSpace]
              rw [hpmain]
              rfl
        · -- non-whitespace head: the head letter moves through both sides
          have htw : (c :: rest).takeWhile (fun x => !x.isWhitespace)
              = c :: rest.takeWhile (fun x => !x.isWhitespace) := by
            simp [List.takeWhile_cons, hc]
          have hdw : (c :: rest).dropWhile (fun x => !x.isWhitespace)
              = rest.dropWhile (fun x => !x.isWhitespace) := by
            simp [List.dropWhile_cons, hc]
          rw [htw, hdw, joinSpace_cons_cons, ih.2 rest h1,
            specCollapse_cons_of_not_ws c rest hc]
    refine ⟨?_, hQ⟩
    intro l h1
    cases l with
    | nil => rfl
    | cons c rest =>
      simp only [List.length_cons, Nat.succ_le_succ_iff] at h1
      by_cases hc : c.isWhitespace
      · rw [pyWords_cons_of_ws c rest hc]
        have hdw : (c :: rest).dropWhile Char.isWhitespace
            = rest.dropWhile Char.isWhitespace := by
          simp [List.dropWhile_cons, hc]
        rw [hdw]
        exact ih.1 rest h1
      · have hdw : (c :: rest).dropWhile Char.isWhitespace = c :: rest := by
          simp [List.dropWhile_cons, hc]
        rw [hdw, pyWords_cons_of_not_ws c rest hc]
        have hfc : pyWordsF rest.length ((c :: rest).dropWhile (fun x => !x.isWhitespace))
            = pyWords ((c :: rest).dropWhile (fun x => !x.isWhitespace)) := by
          apply pyWordsF_congr
          · have hs := (List.dropWhile_sublist
              (l := c :: rest) (fun x => !x.isWhitespace)).length_le
            simp only [List.length_cons] at hs
            have hdw2 : (c :: rest).dropWhile (fun x => !x.isWhitespace)
                = rest.dropWhile (fun x => !x.isWhitespace) := by
              simp [List.dropWhile_cons, hc]
            rw [hdw2]
            have hs2 := (List.dropWhile_sublist
              (l := rest) (fun x => !x.isWhitespace)).length_le
            omega
          · simp
        rw [hfc]
        exact hQ (c :: rest) (by simpa using Nat.succ_le_succ h1)

/-- The function `clean_author` agrees with the specification-worded author cleaning. -/
theorem clean_author_eq_spec (author : String) :
    clean_author author = author_clean_spec author := by
  unfold clean_author author_clean_spec
  split
  · rfl
  · have h1 := (joinSpace_pyWords_eq_collapse author.data.length).1 author.data le_rfl
    rw [h1]

/-! ## Claims C2, C3, C4: the entity-cleaning contract -/

/-- C2 (counterexample): the claim — that for every raw pair the returned
cleaned title equals the result of removing the *cleaned* author from the
title — fails at raw author `"frank  herbert"` (two internal spaces) and
raw title `"dune by frank herbert"`: the code leaves the title untouched
(the raw author, with its double space, does not occur in it), while
removal of the cleaned author `"Frank Herbert"` would leave `"Dune By"`. -/
theorem C2_cex_title_removal_reads_raw_author :
    (extract_entities "frank  herbert" "dune by frank herbert").book_titles
      = [some "Dune By Frank Herbert"] ∧
    title_clean_per_claim "frank  herbert" "dune by frank herbert" = some "Dune By" ∧
    (some "Dune By Frank Herbert" : Option String) ≠ some "Dune By" :=
  ⟨by decide, by decide, by decide⟩

/-- C2 (amended): the author string used by title cleaning's
substring-removal step is the *raw* author answer, compared and removed
case-insensitively — author cleaning is applied only afterwards and never
feeds back into the title: for every raw pair, the returned cleaned title
is the raw-author removal pipeline `title_clean_amended`. -/
theorem C2_amended_title_removal_reads_raw_author (author book_title : String) :
    (extract_entities author book_title).book_titles
      = [title_clean_amended author book_title] := by
  simp [extract_entities, clean_title_eq_amended]

/-- C3 (counterexample): the claim — null on blocklisted titles, otherwise
removal of the (non-null) author — fails at raw author `"unknown"` and raw
title `"Unknown Treasure"`: the author cleans to null (blocklisted), so
per the claim nothing is removed and the result is `"Unknown Treasure"`,
but the code still strips the raw string `"unknown"` and returns
`"Treasure"`. -/
theorem C3_cex_blocklisted_author_still_removed :
    (extract_entities "unknown" "Unknown Treasure").book_titles = [some "Treasure"] ∧
    title_clean_per_claim "unknown" "Unknown Treasure" = some "Unknown Treasure" ∧
    (some "Treasure" : Option String) ≠ some "Unknown Treasure" :=
  ⟨by decide, by decide, by decide⟩

/-- C3 (amended): `extract_entities` returns a null book title when the raw
title is empty or case-insensitively in `{booksky, unknown, none}` (in
particular `"Booksky"` yields null); otherwise it removes every
case-insensitive occurrence of the raw — not the cleaned — author string
when that string is non-empty (even a blocklisted placeholder such as
`"unknown"`), keeps the portion before the first `'/'`, trims whitespace,
and title-cases. -/
theorem C3_amended_title_cleaning :
    (∀ author book_title : String,
      clean_title author book_title = title_clean_amended author book_title) ∧
    (∀ author : String, clean_title author "Booksky" = none) ∧
    (∀ author : String, clean_title author "" = none) :=
  ⟨clean_title_eq_amended, fun _ => rfl, fun _ => rfl⟩

/-- C4 (confirmed): `extract_entities` returns a null author when the raw
author is empty or case-insensitively in
`{unknown, none, author, anonymous}` (in particular `"anonymous"` yields
null); otherwise the raw author with whitespace runs collapsed to single
spaces, trimmed, and title-cased (so `"  j.k.   rowling  "` yields the
non-null collapsed `"J.K. Rowling"`). -/
theorem C4_author_cleaning :
    (∀ author book_title : String,
      (extract_entities author book_title).authors = [author_clean_spec author]) ∧
    clean_author "anonymous" = none ∧
    clean_author "  j.k.   rowling  " = some "J.K. Rowling" :=
  ⟨fun a _ => by simp [extract_entities, clean_author_eq_spec],
   by decide, by decide⟩

/-! ## Lemmas about the lookup-or-create blocks -/

theorem find?_append_none {α : Type} (f : α → Bool) (l l2 : List α)
    (h : l.find? f = none) : (l ++ l2).find? f = l2.find? f := by
  rw [List.find?_append, h]
  rfl

theorem ensureGenre_genres_find (name : String) (db : DB) :
    (ensureGenre name db).2.genres.find? (fun x => x.name == name)
      = some (ensureGenre name db).1 := by
  unfold ensureGenre
  rcases h : db.genres.find? (fun x => x.name == name) with _ | g
  · rw [h]
    dsimp only
    rw [find?_append_none _ _ _ h]
    simp [List.find?]
  · rw [h]
    exact h

theorem ensureGenre_books (name : String) (db : DB) :
    (ensureGenre name db).2.books = db.books := by
  unfold ensureGenre
  split <;> rfl

theorem ensureGenre_nextBookId (name : String) (db : DB) :
    (ensureGenre name db).2.nextBookId = db.nextBookId := by
  unfold ensureGenre
  split <;> rfl

theorem ensureGenre_posts (name : String) (db : DB) :
    (ensureGenre name db).2.posts = db.posts := by
  unfold ensureGenre
  split <;> rfl

theorem ensureGenre_classified (name : String) (db : DB) :
    (ensureGenre name db).2.classified = db.classified := by
  unfold ensureGenre
  split <;> rfl

theorem ensureGenre_genres_sub (name : String) (db : DB) (g : Genre)
    (h : g ∈ db.genres) : g ∈ (ensureGenre name db).2.genres := by
  unfold ensureGenre
  split
  · exact h
  · simp [h]

theorem ensureGenre_fst_mem (name : String) (db : DB) :
    (ensureGenre name db).1 ∈ (ensureGenre name db).2.genres :=
  List.mem_of_find?_eq_some (ensureGenre_genres_find name db)

theorem ensureGenre_idem (name : String) (db : DB) :
    ensureGenre name (ensureGenre name db).2 = ensureGenre name db := by
  conv_lhs => rw [ensureGenre]
  rw [ensureGenre_genres_find name db]

theorem genreCount_zero_iff_find_none (name : String) (db : DB) :
    genreCount name db = 0 ↔
      db.genres.find? (fun x => x.name == name) = none := by
  unfold genreCount
  rw [List.length_eq_zero, List.filter_eq_nil_iff, List.find?_eq_none]

theorem ensurePost_posts_find (c : Classifier) (db : DB) :
    (ensurePost c db).2.posts.find? (fun p => p.text == c.post_text)
      = some (ensurePost c db).1 := by
  unfold ensurePost
  rcases h : db.posts.find? (fun p => p.text == c.post_text) with _ | p
  · rw [h]
    dsimp only
    rw [find?_append_none _ _ _ h]
    simp [List.find?]
  · rw [h]
    exact h

theorem ensurePost_fst_mem (c : Classifier) (db : DB) :
    (ensurePost c db).1 ∈ (ensurePost c db).2.posts :=
  List.mem_of_find?_eq_some (ensurePost_posts_find c db)

theorem ensurePost_skeets (c : Classifier) (db : DB) :
    (ensurePost c db).2.skeets = db.skeets := by
  unfold ensurePost
  split <;> rfl

theorem ensurePost_nextSkeetId (c : Classifier) (db : DB) :
    (ensurePost c db).2.nextSkeetId = db.nextSkeetId := by
  unfold ensurePost
  split <;> rfl

theorem ensurePost_genres (c : Classifier) (db : DB) :
    (ensurePost c db).2.genres = db.genres := by
  unfold ensurePost
  split <;> rfl

theorem ensurePost_classified (c : Classifier) (db : DB) :
    (ensurePost c db).2.classified = db.classified := by
  unfold ensurePost
  split <;> rfl

theorem ensurePost_posts_sub (c : Classifier) (db : DB) (p : Post)
    (h : p ∈ db.posts) : p ∈ (ensurePost c db).2.posts := by
  unfold ensurePost
  split
  · exact h
  · simp [h]

theorem ensurePost_fst_id (c : Classifier) (db : DB) :
    (ensurePost c db).1.id = targetPostId c db := by
  unfold ensurePost targetPostId
  rcases h : db.posts.find? (fun p => p.text == c.post_text) with _ | p <;> rw [h]

theorem ensureGenre_of_found (name : String) (db : DB) (g0 : Genre)
    (h : db.genres.find? (fun x => x.name == name) = some g0) :
    ensureGenre name db = (g0, db) := by
  unfold ensureGenre
  rw [h]

theorem ensureGenre_of_absent (name : String) (db : DB)
    (h : db.genres.find? (fun x => x.name == name) = none) :
    ensureGenre name db
      = ({ id := db.nextGenreId, name := name, description := none },
         { db with
             genres := db.genres ++ [{ id := db.nextGenreId, name := name, description := none }]
             nextGenreId := db.nextGenreId + 1 }) := by
  unfold ensureGenre
  rw [h]

theorem some_beq_some {α : Type} [BEq α] (x y : α) :
    ((some x : Option α) == some y) = (x == y) := rfl

theorem save_book_of_found (t : String) (a : Option String) (g : String) (db : DB)
    (ht : ¬t = "") (b : Book)
    (hf : (ensureGenre g db).2.books.find?
        (fun b => b.title == t && some b.author == a) = some b) :
    save_book_to_db t a g db = (.ok b, (ensureGenre g db).2) := by
  unfold save_book_to_db
  rw [if_neg ht, hf]

theorem save_book_of_absent (t : String) (a : String) (g : String) (db : DB)
    (ht : ¬t = "")
    (hf : (ensureGenre g db).2.books.find?
        (fun b => b.title == t && some b.author == some a) = none) :
    save_book_to_db t (some a) g db =
      (.ok { id := (ensureGenre g db).2.nextBookId, title := t, author := a
             genre_id := (ensureGenre g db).1.id },
       { (ensureGenre g db).2 with
           books := (ensureGenre g db).2.books ++
             [{ id := (ensureGenre g db).2.nextBookId, title := t, author := a
                genre_id := (ensureGenre g db).1.id }]
           nextBookId := (ensureGenre g db).2.nextBookId + 1 }) := by
  unfold save_book_to_db
  rw [if_neg ht, hf]

/-- With a null cleaned author and a non-empty title, the lookup's
`author IS NULL` clause matches no row of the NOT NULL column, and the
create then violates the constraint: `save_book_to_db` raises the
`IntegrityError` after committing only the genre. -/
theorem save_book_none_author (t : String) (g : String) (db : DB)
    (ht : ¬t = "") :
    save_book_to_db t none g db = (.error .integrity, (ensureGenre g db).2) := by
  unfold save_book_to_db
  rw [if_neg ht, List.find?_eq_none.mpr (fun b _ => by simp)]

/-! ## Claim C5: idempotence of the lookup-or-create operations -/

/-- C5 (confirmed): the natural-key lookup-or-create operations are
idempotent.  Genre: ensuring the same name a second time returns the same
`Genre` row and the same store; when the name is initially absent exactly
one row with it exists afterwards, and when present the store is
untouched.  Book: with a non-empty title, an author string, and no
existing `(title, author)` row, `save_book_to_db` returns a book that a
second identical call returns unchanged along with an unchanged store,
exactly one `(title, author)` row exists, and a further call under *any*
genre name still returns that same row — its `genre_id` was set at
creation only and is never revised.  A *null* cleaned author instead
raises the `IntegrityError` of the NOT NULL `book.author` column and
commits no book row, so only real author strings form natural keys. -/
theorem C5_lookup_or_create_idempotent (name t : String) (a : String)
    (g : String) (db dbB : DB) (ht : ¬t = "")
    (hb : dbB.books.find? (fun b => b.title == t && some b.author == some a) = none) :
    (ensureGenre name (ensureGenre name db).2 = ensureGenre name db) ∧
    (genreCount name db = 0 → genreCount name (ensureGenre name db).2 = 1) ∧
    (0 < genreCount name db → (ensureGenre name db).2 = db) ∧
    (∃ b1 db1, save_book_to_db t (some a) g dbB = (.ok b1, db1) ∧
      save_book_to_db t (some a) g db1 = (.ok b1, db1) ∧
      bookCount t a db1 = 1 ∧
      b1.title = t ∧ b1.author = a ∧
      (∀ g2 : String, (save_book_to_db t (some a) g2 db1).1 = .ok b1)) ∧
    (∀ g2 : String, (save_book_to_db t none g2 dbB).1 = .error .integrity ∧
      (save_book_to_db t none g2 dbB).2.books = dbB.books) := by
  refine ⟨ensureGenre_idem name db, ?_, ?_, ?_, ?_⟩
  · intro h0
    have hf := (genreCount_zero_iff_find_none name db).mp h0
    rw [ensureGenre_of_absent name db hf]
    unfold genreCount at h0 ⊢
    dsimp only
    rw [List.filter_append, List.length_eq_zero.mp h0]
    simp
  · intro h0
    rcases hf : db.genres.find? (fun x => x.name == name) with _ | g0
    · rw [(genreCount_zero_iff_find_none name db).mpr hf] at h0
      omega
    · rw [ensureGenre_of_found name db g0 hf]
  · -- book part, author a real string
    have hfB : (ensureGenre g dbB).2.books.find?
        (fun b => b.title == t && some b.author == some a) = none := by
      rw [ensureGenre_books]; exact hb
    obtain ⟨b1, db1, hsave, hbooks, hgenres, hti, hau⟩ :
        ∃ b1 db1, save_book_to_db t (some a) g dbB = (.ok b1, db1)
          ∧ db1.books = (ensureGenre g dbB).2.books ++ [b1]
          ∧ db1.genres = (ensureGenre g dbB).2.genres
          ∧ b1.title = t ∧ b1.author = a :=
      ⟨_, _, save_book_of_absent t a g dbB ht hfB, rfl, rfl, rfl, rfl⟩
    have hfb1 : db1.books.find?
        (fun b => b.title == t && some b.author == some a) = some b1 := by
      rw [hbooks, find?_append_none _ _ _ hfB]
      simp [List.find?, some_beq_some, hti, hau]
    have hgf : db1.genres.find? (fun x => x.name == g) = some (ensureGenre g dbB).1 := by
      rw [hgenres]
      exact ensureGenre_genres_find g dbB
    refine ⟨b1, db1, hsave, ?_, ?_, hti, hau, ?_⟩
    · rw [save_book_of_found t (some a) g db1 ht b1
        (by rw [ensureGenre_books]; exact hfb1),
        ensureGenre_of_found g db1 _ hgf]
    · unfold bookCount
      rw [hbooks, List.filter_append,
        List.filter_eq_nil_iff.mpr (fun b hbm => by
          have hnb := List.find?_eq_none.mp hfB b hbm
          simpa [some_beq_some] using hnb)]
      simp [hti, hau]
    · intro g2
      rw [save_book_of_found t (some a) g2 db1 ht b1
        (by rw [ensureGenre_books]; exact hfb1)]
  · -- book part, author null: the NOT NULL column rejects the insert
    intro g2
    rw [save_book_none_author t g2 dbB ht]
    exact ⟨rfl, ensureGenre_books g2 dbB⟩

/-- Witness for C5: the scenario of the spec's §8 at the fresh store. -/
theorem C5_witness :
    (ensureGenre "Thriller" (ensureGenre "Thriller" emptyDB).2
        = ensureGenre "Thriller" emptyDB) ∧
    (genreCount "Thriller" emptyDB = 0 →
      genreCount "Thriller" (ensureGenre "Thriller" emptyDB).2 = 1) ∧
    (0 < genreCount "Thriller" emptyDB → (ensureGenre "Thriller" emptyDB).2 = emptyDB) ∧
    (∃ b1 db1, save_book_to_db "Dune" (some "Frank Herbert") "science fiction" emptyDB
          = (.ok b1, db1) ∧
      save_book_to_db "Dune" (some "Frank Herbert") "science fiction" db1
          = (.ok b1, db1) ∧
      bookCount "Dune" "Frank Herbert" db1 = 1 ∧
      b1.title = "Dune" ∧ b1.author = "Frank Herbert" ∧
      (∀ g2 : String,
        (save_book_to_db "Dune" (some "Frank Herbert") g2 db1).1 = .ok b1)) ∧
    (∀ g2 : String, (save_book_to_db "Dune" none g2 emptyDB).1 = .error .integrity ∧
      (save_book_to_db "Dune" none g2 emptyDB).2.books = emptyDB.books) :=
  C5_lookup_or_create_idempotent "Thriller" "Dune" "Frank Herbert"
    "science fiction" emptyDB emptyDB (by decide) (by decide)

/-! ## Claim C9: the empty-title error commits the genre first -/

/-- C9 (confirmed): `save_book_to_db` validates the title only after
ensuring the genre — with an empty title and no `Genre` row carrying the
name, the call raises `"Book title cannot be empty!"` but first creates
and commits the new `Genre` row, so the store is not left unchanged by the
failing call. -/
theorem C9_empty_title_commits_genre (a : Option String) (g : String) (db : DB)
    (h : db.genres.find? (fun x => x.name == g) = none) :
    (save_book_to_db "" a g db).1 = .error (.validation "Book title cannot be empty!") ∧
    (save_book_to_db "" a g db).2.genres
      = db.genres ++ [{ id := db.nextGenreId, name := g, description := none }] ∧
    (save_book_to_db "" a g db).2.books = db.books ∧
    (save_book_to_db "" a g db).2 ≠ db := by
  have hsave : save_book_to_db "" a g db
      = (.error (.validation "Book title cannot be empty!"), (ensureGenre g db).2) := by
    unfold save_book_to_db
    rw [if_pos rfl]
  rw [hsave, ensureGenre_of_absent g db h]
  refine ⟨rfl, rfl, rfl, fun he => ?_⟩
  have hlen := congrArg (fun d => d.genres.length) he
  simp at hlen

/-- Witness for C9 at the fresh store. -/
theorem C9_witness :
    (save_book_to_db "" (some "A") "fantasy" emptyDB).1
      = .error (.validation "Book title cannot be empty!") ∧
    (save_book_to_db "" (some "A") "fantasy" emptyDB).2.genres
      = emptyDB.genres
          ++ [{ id := emptyDB.nextGenreId, name := "fantasy", description := none }] ∧
    (save_book_to_db "" (some "A") "fantasy" emptyDB).2.books = emptyDB.books ∧
    (save_book_to_db "" (some "A") "fantasy" emptyDB).2 ≠ emptyDB :=
  C9_empty_title_commits_genre (some "A") "fantasy" emptyDB (by decide)

/-! ## Claim C8: the `ClassifiedPost` invariant of `save_genre_to_db` -/

/-- C8 (confirmed): every state reachable through `save_genre_to_db`
satisfies the association invariant — each `ClassifiedPost` row references
a `Post` and a `Genre` already committed to the store, and at most one row
exists per `(post_id, genre_id)` pair (insert-if-absent semantics). -/
theorem C8_classified_invariant (db : DB) (h : ReachableGenre db) :
    ClassifiedInv db := by
  induction h with
  | init =>
    exact ⟨fun cp hcp => absurd hcp (by simp [emptyDB]), by simp [emptyDB]⟩
  | step c gname hprev ih =>
    rename_i db0
    obtain ⟨ihref, ihpw⟩ := ih
    simp only [save_genre_to_db]
    have hcls : (ensureGenre gname (ensurePost c db0).2).2.classified
        = db0.classified := by
      rw [ensureGenre_classified, ensurePost_classified]
    have hposts : (ensureGenre gname (ensurePost c db0).2).2.posts
        = (ensurePost c db0).2.posts := ensureGenre_posts _ _
    have hpmem : (ensurePost c db0).1
        ∈ (ensureGenre gname (ensurePost c db0).2).2.posts := by
      rw [hposts]
      exact ensurePost_fst_mem c db0
    have hgmem : (ensureGenre gname (ensurePost c db0).2).1
        ∈ (ensureGenre gname (ensurePost c db0).2).2.genres :=
      ensureGenre_fst_mem _ _
    have hpostsub : ∀ p ∈ db0.posts,
        p ∈ (ensureGenre gname (ensurePost c db0).2).2.posts := by
      intro p hp
      rw [hposts]
      exact ensurePost_posts_sub c db0 p hp
    have hgensub : ∀ g ∈ db0.genres,
        g ∈ (ensureGenre gname (ensurePost c db0).2).2.genres := by
      intro g hg
      refine ensureGenre_genres_sub _ _ g ?_
      rw [ensurePost_genres]
      exact hg
    rcases hfc : (ensureGenre gname (ensurePost c db0).2).2.classified.find?
        (fun e => e.post_id == (ensurePost c db0).1.id
          && e.genre_id == (ensureGenre gname (ensurePost c db0).2).1.id) with _ | e0
    · rw [hfc]
      constructor
      · intro cp hcp
        dsimp only at hcp
        rw [hcls] at hcp
        rcases List.mem_append.mp hcp with hold | hnew
        · obtain ⟨⟨p, hp, hpid⟩, ⟨g, hg, hgid⟩⟩ := ihref cp hold
          exact ⟨⟨p, hpostsub p hp, hpid⟩, ⟨g, hgensub g hg, hgid⟩⟩
        · have hcp2 : cp
              = ⟨(ensurePost c db0).1.id, (ensureGenre gname (ensurePost c db0).2).1.id⟩ := by
            simpa using hnew
          subst hcp2
          exact ⟨⟨_, hpmem, rfl⟩, ⟨_, hgmem, rfl⟩⟩
      · dsimp only
        rw [hcls]
        rw [List.pairwise_append]
        refine ⟨ihpw, by simp, ?_⟩
        intro x hx y hy
        have hy2 : y
            = ⟨(ensurePost c db0).1.id, (ensureGenre gname (ensurePost c db0).2).1.id⟩ := by
          simpa using hy
        subst hy2
        have hnone := List.find?_eq_none.mp (hcls ▸ hfc) x hx
        intro ⟨h1, h2⟩
        exact hnone (by simp [h1, h2])
    · rw [hfc]
      constructor
      · intro cp hcp
        rw [hcls] at hcp
        obtain ⟨⟨p, hp, hpid⟩, ⟨g, hg, hgid⟩⟩ := ihref cp hcp
        exact ⟨⟨p, hpostsub p hp, hpid⟩, ⟨g, hgensub g hg, hgid⟩⟩
      · rw [hcls]
        exact ihpw

/-- Witness for C8: the invariant at a concrete reachable state, one
`save_genre_to_db` call above the fresh store. -/
theorem C8_witness :
    ClassifiedInv (save_genre_to_db (mkClassifier (rawPostNamed "t1")) "fantasy" emptyDB) :=
  C8_classified_invariant _
    (ReachableGenre.step (mkClassifier (rawPostNamed "t1")) "fantasy" ReachableGenre.init)

/-! ## Lemmas about `save_skeet_to_db` -/

theorem ensurePost_of_found (c : Classifier) (db : DB) (p0 : Post)
    (h : db.posts.find? (fun p => p.text == c.post_text) = some p0) :
    ensurePost c db = (p0, db) := by
  unfold ensurePost
  rw [h]

theorem save_skeet_of_absent (c : Classifier) (book : Option Book) (db : DB)
    (hf : (ensurePost c db).2.skeets.find?
        (fun s => s.post_id == (ensurePost c db).1.id && s.user_id == 1) = none) :
    save_skeet_to_db c book db
      = { (ensurePost c db).2 with
          skeets := (ensurePost c db).2.skeets ++
            [⟨(ensurePost c db).2.nextSkeetId, (ensurePost c db).1.id, 1,
              book.map (fun b => b.id)⟩]
          nextSkeetId := (ensurePost c db).2.nextSkeetId + 1 } := by
  simp only [save_skeet_to_db]
  rw [hf]

theorem save_skeet_found_none_book (c : Classifier) (db : DB) (s : SavedSkeet)
    (hf : (ensurePost c db).2.skeets.find?
        (fun x => x.post_id == (ensurePost c db).1.id && x.user_id == 1) = some s) :
    save_skeet_to_db c none db = (ensurePost c db).2 := by
  simp only [save_skeet_to_db]
  rw [hf]

theorem save_skeet_found_filled (c : Classifier) (b : Book) (db : DB) (s : SavedSkeet)
    (hf : (ensurePost c db).2.skeets.find?
        (fun x => x.post_id == (ensurePost c db).1.id && x.user_id == 1) = some s)
    (hbid : ¬s.book_id = none) :
    save_skeet_to_db c (some b) db = (ensurePost c db).2 := by
  simp only [save_skeet_to_db]
  rw [hf]
  simp [hbid]

theorem save_skeet_found_backfill (c : Classifier) (b : Book) (db : DB) (s : SavedSkeet)
    (hf : (ensurePost c db).2.skeets.find?
        (fun x => x.post_id == (ensurePost c db).1.id && x.user_id == 1) = some s)
    (hbid : s.book_id = none) :
    save_skeet_to_db c (some b) db
      = { (ensurePost c db).2 with
          skeets := (ensurePost c db).2.skeets.map
            (fun t => if t.id == s.id then { t with book_id := some b.id } else t) } := by
  simp only [save_skeet_to_db]
  rw [hf]
  simp [hbid]

theorem map_eq_self_of {α : Type} (f : α → α) (l : List α) (h : ∀ x ∈ l, f x = x) :
    l.map f = l := by
  induction l with
  | nil => rfl
  | cons x rest ih =>
    simp only [List.map_cons, h x (by simp)]
    rw [ih (fun y hy => h y (by simp [hy]))]

/-! ## Claim C6: one `SavedSkeet` per `(user, post)`, backfill only while null -/

/-- C6 (confirmed): starting from a store holding no `SavedSkeet` for the
post under the fixed system user `1` (and whose skeet ids respect the
autoincrement counter), calling `save_skeet_to_db` first with no book,
then with a book of id `7`, then with a book of id `9`, leaves exactly one
`SavedSkeet` row for the pair, its `book_id` is `7` — the third call
changes nothing (a non-null `book_id` is never overwritten) — and a
repeated book-less call after the first also changes nothing.  The
`user_id` the operation manages is the hard-coded system user `1`. -/
theorem C6_skeet_backfill (c : Classifier) (db : DB) (b7 b9 : Book)
    (hb7 : b7.id = 7) (_hb9 : b9.id = 9)
    (h1 : ∀ s ∈ db.skeets, ¬(s.post_id = targetPostId c db ∧ s.user_id = 1))
    (h2 : ∀ s ∈ db.skeets, s.id < db.nextSkeetId) :
    skeetCount (targetPostId c db) 1
        (save_skeet_to_db c (some b9)
          (save_skeet_to_db c (some b7) (save_skeet_to_db c none db))) = 1 ∧
    (∀ s ∈ (save_skeet_to_db c (some b9)
        (save_skeet_to_db c (some b7) (save_skeet_to_db c none db))).skeets,
      s.post_id = targetPostId c db → s.user_id = 1 → s.book_id = some 7) ∧
    save_skeet_to_db c (some b9)
        (save_skeet_to_db c (some b7) (save_skeet_to_db c none db))
      = save_skeet_to_db c (some b7) (save_skeet_to_db c none db) ∧
    save_skeet_to_db c none (save_skeet_to_db c none db)
      = save_skeet_to_db c none db := by
  have hfdb : db.skeets.find?
      (fun s => s.post_id == (ensurePost c db).1.id && s.user_id == 1) = none := by
    apply List.find?_eq_none.mpr
    intro s hs
    simp only [ensurePost_fst_id, Bool.and_eq_true, beq_iff_eq]
    exact fun hcontra => h1 s hs ⟨hcontra.1, hcontra.2⟩
  have hf1 : (ensurePost c db).2.skeets.find?
      (fun s => s.post_id == (ensurePost c db).1.id && s.user_id == 1) = none := by
    rw [ensurePost_skeets]
    exact hfdb
  have hE1 := save_skeet_of_absent c none db hf1
  have hsk1skeets : (save_skeet_to_db c none db).skeets
      = db.skeets ++ [⟨db.nextSkeetId, targetPostId c db, 1, none⟩] := by
    rw [hE1]
    dsimp only
    rw [ensurePost_skeets, ensurePost_nextSkeetId, ensurePost_fst_id]
    rfl
  have hsk1posts : (save_skeet_to_db c none db).posts = (ensurePost c db).2.posts := by
    rw [hE1]
  have hEP2 : ensurePost c (save_skeet_to_db c none db)
      = ((ensurePost c db).1, save_skeet_to_db c none db) := by
    apply ensurePost_of_found
    rw [hsk1posts]
    exact ensurePost_posts_find c db
  have hf2 : (save_skeet_to_db c none db).skeets.find?
      (fun s => s.post_id == (ensurePost c db).1.id && s.user_id == 1)
      = some ⟨db.nextSkeetId, targetPostId c db, 1, none⟩ := by
    rw [hsk1skeets, find?_append_none _ _ _ hfdb]
    simp [List.find?, ensurePost_fst_id]
  have hE2 := save_skeet_found_backfill c b7 (save_skeet_to_db c none db)
    ⟨db.nextSkeetId, targetPostId c db, 1, none⟩
    (by rw [hEP2]; exact hf2) rfl
  rw [hEP2] at hE2
  have hsk2skeets : (save_skeet_to_db c (some b7) (save_skeet_to_db c none db)).skeets
      = db.skeets ++ [⟨db.nextSkeetId, targetPostId c db, 1, some 7⟩] := by
    rw [hE2]
    dsimp only
    rw [hsk1skeets, List.map_append]
    congr 1
    · apply map_eq_self_of
      intro t ht
      have hlt := h2 t ht
      simp [Nat.ne_of_lt hlt]
    · simp [hb7]
  have hsk2posts : (save_skeet_to_db c (some b7) (save_skeet_to_db c none db)).posts
      = (ensurePost c db).2.posts := by
    rw [hE2]
    dsimp only
    exact hsk1posts
  have hEP3 : ensurePost c (save_skeet_to_db c (some b7) (save_skeet_to_db c none db))
      = ((ensurePost c db).1,
         save_skeet_to_db c (some b7) (save_skeet_to_db c none db)) := by
    apply ensurePost_of_found
    rw [hsk2posts]
    exact ensurePost_posts_find c db
  have hf3 : (save_skeet_to_db c (some b7) (save_skeet_to_db c none db)).skeets.find?
      (fun s => s.post_id == (ensurePost c db).1.id && s.user_id == 1)
      = some ⟨db.nextSkeetId, targetPostId c db, 1, some 7⟩ := by
    rw [hsk2skeets, find?_append_none _ _ _ hfdb]
    simp [List.find?, ensurePost_fst_id]
  have hE3 := save_skeet_found_filled c b9
    (save_skeet_to_db c (some b7) (save_skeet_to_db c none db))
    ⟨db.nextSkeetId, targetPostId c db, 1, some 7⟩
    (by rw [hEP3]; exact hf3) (by simp)
  rw [hEP3] at hE3
  have hrept := save_skeet_found_none_book c (save_skeet_to_db c none db)
    ⟨db.nextSkeetId, targetPostId c db, 1, none⟩
    (by rw [hEP2]; exact hf2)
  rw [hEP2] at hrept
  refine ⟨?_, ?_, hE3, hrept⟩
  · unfold skeetCount
    rw [hE3, hsk2skeets, List.filter_append,
      List.filter_eq_nil_iff.mpr (fun s hs => by
        simp only [Bool.and_eq_true, beq_iff_eq]
        exact fun hcontra => h1 s hs ⟨hcontra.1, hcontra.2⟩)]
    simp
  · intro s hs hp hu
    rw [hE3, hsk2skeets] at hs
    rcases List.mem_append.mp hs with hold | hnew
    · exact absurd ⟨hp, hu⟩ (h1 s hold)
    · have hseq : s = ⟨db.nextSkeetId, targetPostId c db, 1, some 7⟩ := by
        simpa using hnew
      rw [hseq]

/-- Witness for C6: the backfill scenario at the fresh store with concrete
books of ids `7` and `9`. -/
theorem C6_witness :
    skeetCount (targetPostId (mkClassifier (rawPostNamed "t1")) emptyDB) 1
        (save_skeet_to_db (mkClassifier (rawPostNamed "t1"))
          (some ⟨9, "Dune", "Frank Herbert", 1⟩)
          (save_skeet_to_db (mkClassifier (rawPostNamed "t1"))
            (some ⟨7, "Dune", "Frank Herbert", 1⟩)
            (save_skeet_to_db (mkClassifier (rawPostNamed "t1")) none emptyDB))) = 1 ∧
    (∀ s ∈ (save_skeet_to_db (mkClassifier (rawPostNamed "t1"))
        (some ⟨9, "Dune", "Frank Herbert", 1⟩)
        (save_skeet_to_db (mkClassifier (rawPostNamed "t1"))
          (some ⟨7, "Dune", "Frank Herbert", 1⟩)
          (save_skeet_to_db (mkClassifier (rawPostNamed "t1")) none emptyDB))).skeets,
      s.post_id = targetPostId (mkClassifier (rawPostNamed "t1")) emptyDB →
        s.user_id = 1 → s.book_id = some 7) ∧
    save_skeet_to_db (mkClassifier (rawPostNamed "t1"))
        (some ⟨9, "Dune", "Frank Herbert", 1⟩)
        (save_skeet_to_db (mkClassifier (rawPostNamed "t1"))
          (some ⟨7, "Dune", "Frank Herbert", 1⟩)
          (save_skeet_to_db (mkClassifier (rawPostNamed "t1")) none emptyDB))
      = save_skeet_to_db (mkClassifier (rawPostNamed "t1"))
          (some ⟨7, "Dune", "Frank Herbert", 1⟩)
          (save_skeet_to_db (mkClassifier (rawPostNamed "t1")) none emptyDB) ∧
    save_skeet_to_db (mkClassifier (rawPostNamed "t1")) none
        (save_skeet_to_db (mkClassifier (rawPostNamed "t1")) none emptyDB)
      = save_skeet_to_db (mkClassifier (rawPostNamed "t1")) none emptyDB :=
  C6_skeet_backfill (mkClassifier (rawPostNamed "t1")) emptyDB
    ⟨7, "Dune", "Frank Herbert", 1⟩ ⟨9, "Dune", "Frank Herbert", 1⟩
    rfl rfl (by decide) (by decide)

/-! ## Lemmas about the persist loop -/

theorem save_book_ok (t : String) (a : String) (g : String) (db : DB)
    (ht : ¬t = "") :
    ∃ b db1, save_book_to_db t (some a) g db = (.ok b, db1) := by
  rcases hf : (ensureGenre g db).2.books.find?
      (fun b => b.title == t && some b.author == some a) with _ | b
  · exact ⟨_, _, save_book_of_absent t a g db ht hf⟩
  · exact ⟨b, _, save_book_of_found t (some a) g db ht b hf⟩

/-- The persist loop never surfaces the `ValueError`: `save_book_to_db` is
only invoked with a non-empty title, so the only exception it can raise
there is the `IntegrityError` of a null cleaned author. -/
theorem persistPairs_no_validation (c : Classifier) (genre : String) :
    ∀ (pairs : List (Option String × Option String)) (db : DB),
      (persistPairs c genre pairs db).2 = none
        ∨ (persistPairs c genre pairs db).2 = some .integrity := by
  intro pairs
  induction pairs with
  | nil => intro db; left; rfl
  | cons pr rest ih =>
    intro db
    rcases pr with ⟨author, title⟩
    simp only [persistPairs]
    rcases title with _ | t
    · exact ih _
    · dsimp only
      by_cases ht : t = ""
      · rw [if_pos ht]
        exact ih _
      · rw [if_neg ht]
        rcases author with _ | a
        · rw [save_book_none_author t genre db ht]
          right
          rfl
        · obtain ⟨b, db1, hsb⟩ := save_book_ok t a genre db ht
          rw [hsb]
          exact ih _

theorem processPost_no_validation (o : Oracle) (rp : RawPost) (db : DB) :
    (processPost o rp db).2 = none ∨ (processPost o rp db).2 = some .external
      ∨ (processPost o rp db).2 = some .integrity := by
  unfold processPost
  rcases h1 : o.classify rp.text with e | genre
  · right
    left
    rfl
  · rcases h2 : o.qa_author rp.text with e | rawAuthor
    · right
      left
      rfl
    · rcases h3 : o.qa_title rp.text with e | rawTitle
      · right
        left
        rfl
      · exact (persistPairs_no_validation _ _ _ _).imp id Or.inr

/-! ## Claim C7: the PERSISTED branch condition -/

/-- C7 (counterexample): the claim branches on "cleaned title is null", but
the code branches on Python falsiness.  With extraction answers author
`"frank herbert"`, title `"frank herbert"`, the cleaned title is the
*empty string* (non-null): the code takes the book-less branch and
succeeds with no Book row, while the claim's reading would call
`save_book_to_db` with the empty title and fail with the validation
error — the two runs differ. -/
theorem C7_cex_branch_is_falsiness_not_null :
    clean_title "frank herbert" "frank herbert" = some "" ∧
    processPost oracleEmptyTitle (rawPostNamed "I loved it") emptyDB
      ≠ processPostClaimC7 oracleEmptyTitle (rawPostNamed "I loved it") emptyDB ∧
    (processPost oracleEmptyTitle (rawPostNamed "I loved it") emptyDB).1.books = [] ∧
    (processPost oracleEmptyTitle (rawPostNamed "I loved it") emptyDB).2 = none ∧
    (processPostClaimC7 oracleEmptyTitle (rawPostNamed "I loved it") emptyDB).2
      = some (.validation "Book title cannot be empty!") :=
  ⟨by decide, by decide, by decide, by decide, by decide⟩

/-- C7 (amended): the PERSISTED step branches on the *falsiness* of the
cleaned title — when it is null **or the empty string**, a `SavedSkeet` is
ensured for the post with a null `book_id`; otherwise `save_book_to_db`
runs first, and its outcome splits on the cleaned author: with a non-null
author it succeeds and the `SavedSkeet` is ensured with that book's id,
while with a null cleaned author the book commit violates the NOT NULL
`book.author` column and the raised `IntegrityError` aborts the post with
no `SavedSkeet` ensured and only the genre committed.  Every `SavedSkeet`
row the operation touches carries the fixed system user id `1`: a row of
the resulting store is either new with `user_id = 1` or keeps the
`user_id` of a row already present. -/
theorem C7_amended_persist_branch (c : Classifier) (genre : String)
    (author title : Option String) (db : DB) :
    ((title = none ∨ title = some "") →
      persistPairs c genre [(author, title)] db = (save_skeet_to_db c none db, none)) ∧
    (∀ t a, title = some t → ¬t = "" → author = some a →
      ∃ b db1, save_book_to_db t (some a) genre db = (.ok b, db1) ∧
        persistPairs c genre [(author, title)] db
          = (save_skeet_to_db c (some b) db1, none)) ∧
    (∀ t, title = some t → ¬t = "" → author = none →
      persistPairs c genre [(author, title)] db
        = ((ensureGenre genre db).2, some .integrity)) ∧
    (∀ (bk : Option Book) (db0 : DB), ∀ s ∈ (save_skeet_to_db c bk db0).skeets,
      s.user_id = 1 ∨ ∃ s0 ∈ db0.skeets, s.user_id = s0.user_id) := by
  refine ⟨?_, ?_, ?_, ?_⟩
  · rintro (h | h) <;> subst h <;> rfl
  · intro t a hteq ht haeq
    subst hteq
    subst haeq
    obtain ⟨b, db1, hsb⟩ := save_book_ok t a genre db ht
    refine ⟨b, db1, hsb, ?_⟩
    simp only [persistPairs]
    rw [if_neg ht, hsb]
  · intro t hteq ht haeq
    subst hteq
    subst haeq
    simp only [persistPairs]
    rw [if_neg ht, save_book_none_author t genre db ht]
    rfl
  · intro bk db0 s hs
    rcases hf : (ensurePost c db0).2.skeets.find?
        (fun x => x.post_id == (ensurePost c db0).1.id && x.user_id == 1) with _ | s1
    · rw [save_skeet_of_absent c bk db0 hf] at hs
      dsimp only at hs
      rw [ensurePost_skeets] at hs
      rcases List.mem_append.mp hs with hold | hnew
      · exact Or.inr ⟨s, hold, rfl⟩
      · left
        have hs2 : s = ⟨(ensurePost c db0).2.nextSkeetId, (ensurePost c db0).1.id, 1,
            bk.map (fun b => b.id)⟩ := by simpa using hnew
        rw [hs2]
    · rcases bk with _ | b
      · rw [save_skeet_found_none_book c db0 s1 hf, ensurePost_skeets] at hs
        exact Or.inr ⟨s, hs, rfl⟩
      · by_cases hb : s1.book_id = none
        · rw [save_skeet_found_backfill c b db0 s1 hf hb] at hs
          dsimp only at hs
          rw [ensurePost_skeets] at hs
          obtain ⟨s0, hs0, hmap⟩ := List.mem_map.mp hs
          refine Or.inr ⟨s0, hs0, ?_⟩
          rw [← hmap]
          by_cases hid : (s0.id == s1.id) = true
          · rw [if_pos hid]
          · rw [if_neg hid]
        · rw [save_skeet_found_filled c b db0 s1 hf hb, ensurePost_skeets] at hs
          exact Or.inr ⟨s, hs, rfl⟩

/-- Witness for C7's amended theorem: all three branches at concrete
inputs — falsy title, non-null author, and null author. -/
theorem C7_amended_witness :
    persistPairs (mkClassifier (rawPostNamed "t1")) "fantasy"
        [(some "A", some "")] emptyDB
      = (save_skeet_to_db (mkClassifier (rawPostNamed "t1")) none emptyDB, none) ∧
    (∃ b db1, save_book_to_db "Dune" (some "A") "fantasy" emptyDB = (.ok b, db1) ∧
      persistPairs (mkClassifier (rawPostNamed "t1")) "fantasy"
          [(some "A", some "Dune")] emptyDB
        = (save_skeet_to_db (mkClassifier (rawPostNamed "t1")) (some b) db1, none)) ∧
    persistPairs (mkClassifier (rawPostNamed "t1")) "fantasy"
        [(none, some "Dune")] emptyDB
      = ((ensureGenre "fantasy" emptyDB).2, some .integrity) :=
  ⟨(C7_amended_persist_branch (mkClassifier (rawPostNamed "t1")) "fantasy"
      (some "A") (some "") emptyDB).1 (Or.inr rfl),
   (C7_amended_persist_branch (mkClassifier (rawPostNamed "t1")) "fantasy"
      (some "A") (some "Dune") emptyDB).2.1 "Dune" "A" rfl (by decide) rfl,
   (C7_amended_persist_branch (mkClassifier (rawPostNamed "t1")) "fantasy"
      none (some "Dune") emptyDB).2.2.1 "Dune" rfl (by decide) rfl⟩

/-! ## Claim C10: the empty-string title and the unreachable error branch -/

/-- C10 (confirmed): `extract_entities` can return the empty string (not
null) as the cleaned title — e.g. when the raw title consists exactly of
the raw author — and at such a post the pipeline takes the book-less
branch with no error and creates no Book row; in general, because the
persist loop tests the cleaned title for falsiness, `save_book_to_db` is
never invoked with an empty title and so its empty-title `ValueError` is
unreachable from the batch pipeline: a post's processing ends in success,
in the external-service error, or in the `IntegrityError` of a null
cleaned author — never in the validation error. -/
theorem C10_empty_title_bookless_no_validation :
    clean_title "frank herbert" "frank herbert" = some "" ∧
    (processPost oracleEmptyTitle (rawPostNamed "I loved it") emptyDB).1.books = [] ∧
    (processPost oracleEmptyTitle (rawPostNamed "I loved it") emptyDB).2 = none ∧
    (∀ (o : Oracle) (rp : RawPost) (db : DB),
      (processPost o rp db).2 = none ∨ (processPost o rp db).2 = some .external
        ∨ (processPost o rp db).2 = some .integrity) :=
  ⟨by decide, by decide, by decide, processPost_no_validation⟩

/-! ## Claim C1: batch processing under a failing classification -/

/-- C1 (counterexample): the claim — that in a batch of three posts where
only the second post's classification raises, the first and third posts
are still fully persisted — fails: the loop body of
`classify_and_save_posts` has no exception handler, so the error raised on
post #2 propagates and post #3 is never processed (no Post row with its
text exists), while post #1's rows are committed. -/
theorem C1_cex_batch_halts_on_failure :
    (classify_and_save_posts oracleFailT2
        [rawPostNamed "t1", rawPostNamed "t2", rawPostNamed "t3"] emptyDB).2
      = some .external ∧
    ((classify_and_save_posts oracleFailT2
        [rawPostNamed "t1", rawPostNamed "t2", rawPostNamed "t3"] emptyDB).1.posts.map
        (fun p => p.text)) = ["t1"] ∧
    (classify_and_save_posts oracleFailT2
        [rawPostNamed "t1", rawPostNamed "t2", rawPostNamed "t3"] emptyDB).1.posts.find?
        (fun p => p.text == "t3") = none ∧
    (classify_and_save_posts oracleFailT2
        [rawPostNamed "t1", rawPostNamed "t2", rawPostNamed "t3"] emptyDB).1.skeets.length
      = 1 ∧
    (classify_and_save_posts oracleFailT2
        [rawPostNamed "t1", rawPostNamed "t2", rawPostNamed "t3"]
        emptyDB).1.classified.length = 1 :=
  ⟨by decide, by decide, by decide, by decide, by decide⟩

/-- C1 (amended): a failure while processing one post *halts* the batch:
whatever prefix of the batch was already processed stays committed, the
failing post's error is surfaced, and the posts after the failing one are
never processed — the result does not depend on them at all. -/
theorem C1_amended_batch_halts (o : Oracle) (pre : List RawPost) (p : RawPost)
    (suf : List RawPost) (db db1 db2 : DB) (e : PErr)
    (hpre : classify_and_save_posts o pre db = (db1, none))
    (hp : processPost o p db1 = (db2, some e)) :
    classify_and_save_posts o (pre ++ p :: suf) db = (db2, some e) := by
  induction pre generalizing db with
  | nil =>
    have hdb : db1 = db := by
      have : (db, (none : Option PErr)) = (db1, none) := hpre
      exact (Prod.mk.injEq .. ▸ this).1.symm
    subst hdb
    simp only [List.nil_append, classify_and_save_posts]
    rw [hp]
  | cons q pre' ih =>
    simp only [classify_and_save_posts] at hpre ⊢
    rcases hq : processPost o q db with ⟨d, oe⟩
    rw [hq] at hpre
    rcases oe with _ | e'
    · exact ih d hpre
    · exact absurd (congrArg Prod.snd hpre) (by simp)

/-- Witness for C1's amended theorem: the three-post scenario in which the
second post's classification raises. -/
theorem C1_amended_witness :
    classify_and_save_posts oracleFailT2
        ([rawPostNamed "t1"] ++ rawPostNamed "t2" :: [rawPostNamed "t3"]) emptyDB
      = ((processPost oracleFailT2 (rawPostNamed "t2")
            (classify_and_save_posts oracleFailT2 [rawPostNamed "t1"] emptyDB).1).1,
         some .external) :=
  C1_amended_batch_halts oracleFailT2 [rawPostNamed "t1"] (rawPostNamed "t2")
    [rawPostNamed "t3"] emptyDB
    (classify_and_save_posts oracleFailT2 [rawPostNamed "t1"] emptyDB).1
    (processPost oracleFailT2 (rawPostNamed "t2")
      (classify_and_save_posts oracleFailT2 [rawPostNamed "t1"] emptyDB).1).1
    .external (by decide) (by decide)

end Shelfworthy
